import Mathlib

/-!
Verification development for the metadata-resolution core of aqtinstall
(repository ddalcino/aqtinstall).

The definitions below are a shallow embedding of the Python sources:

* `src/aqt/repo_model.py` — `Schema` (`fill_template`, `list_allowed_values_for`,
  `yield_urls`), `RepoModel` (`get_schema`), `SchemaError`;
* `src/aqt/exceptions.py` — `AqtException.__format__` and
  `_format_suggested_follow_up`;
* `aqt/metadata.py` (`Versions`, `MetadataFactory.fetch_http`, `Version`,
  `SimpleSpec`) is not part of the source tree we were given, only its tests;
  the corresponding definitions are modelled from the specification and are
  marked as such in their doc comments.

Python dictionaries are embedded as association lists (`List (String × α)`);
lookup takes the first matching key and assignment replaces in place, which
matches CPython's insertion-ordered dict semantics.  Python exceptions are
embedded as an explicit error type `Err` returned through `Except`.
-/

namespace Aqt

/-- Embeds the Python exceptions that the embedded code can raise.
`schemaError` is `aqt.repo_model.SchemaError`, `cliInputError` is
`aqt.exceptions.CliInputError`; the remaining constructors stand for the
Python builtin exceptions `KeyError`, `ValueError`, `TypeError` and
`NameError` that the code can raise on malformed input. -/
inductive Err where
  | schemaError (msg : String)
  | cliInputError (msg : String)
  | keyError (msg : String)
  | valueError (msg : String)
  | typeError (msg : String)
  | nameError (msg : String)
deriving DecidableEq, Repr

/-- Modelled from the spec: `Version` is "a parsed, totally-ordered semantic
version value": `(major, minor, patch)` with numeric components (the
prerelease/build fields are never exercised by the embedded code paths).
The class lives in `aqt/metadata.py`, which is not under `src/`. -/
structure Version where
  major : Nat
  minor : Nat
  patch : Nat
deriving DecidableEq, Repr

/-- Strict total order on versions: lexicographic on (major, minor, patch). -/
def versionLt (a b : Version) : Bool :=
  Nat.blt a.major b.major ||
    (Nat.beq a.major b.major &&
      (Nat.blt a.minor b.minor ||
        (Nat.beq a.minor b.minor && Nat.blt a.patch b.patch)))

/-- Structural equality of versions as a Bool. -/
def versionBeq (a b : Version) : Bool :=
  Nat.beq a.major b.major && Nat.beq a.minor b.minor && Nat.beq a.patch b.patch

/-- Non-strict total order on versions. -/
def versionLe (a b : Version) : Bool :=
  versionLt a b || versionBeq a b

/-- Python `str(Version(...))`: dotted rendering of the three components. -/
def versionToString (v : Version) : String :=
  toString v.major ++ "." ++ toString v.minor ++ "." ++ toString v.patch

/-- Split a character list at every `'.'` (Python `str.split(".")`). -/
def splitOnDot (cs : List Char) : List (List Char) :=
  cs.foldr
    (fun c acc =>
      match acc with
      | [] => [[c]]
      | h :: t => if c == '.' then [] :: h :: t else (c :: h) :: t)
    [[]]

/-- Parse a decimal numeral; `none` when empty or holding a non-digit. -/
def parseNatChars (cs : List Char) : Option Nat :=
  if cs.isEmpty then none
  else if cs.all Char.isDigit then
    some (cs.foldl (fun a c => a * 10 + (c.toNat - 48)) 0)
  else none

/-- Embeds `Version.parse`: accepts exactly `major.minor.patch` with numeric
segments, as the spec requires ("at least major.minor.patch"; the optional
prerelease/build tails are never exercised here). -/
def Version.parse (s : String) : Option Version :=
  match (splitOnDot s.data).map parseNatChars with
  | [some a, some b, some c] => some ⟨a, b, c⟩
  | _ => none

/-- Modelled from the spec: `SimpleSpec` (a `VersionRange`) is "an immutable
predicate compiled from a range expression; supports `*` (always true),
comparison-prefixed expressions (`>=`, `>`, `<=`, `<`), and bare exact
versions".  Defined in `aqt/metadata.py`, which is not under `src/`. -/
inductive SimpleSpec where
  | star
  | ge (v : Version)
  | gt (v : Version)
  | le (v : Version)
  | lt (v : Version)
  | eq (v : Version)
deriving DecidableEq, Repr

/-- Parse a possibly partial dotted version (`"4.1"` means `4.1.0`),
used inside range expressions. -/
def parsePartialVersion (cs : List Char) : Option Version :=
  match (splitOnDot cs).map parseNatChars with
  | [some a] => some ⟨a, 0, 0⟩
  | [some a, some b] => some ⟨a, b, 0⟩
  | [some a, some b, some c] => some ⟨a, b, c⟩
  | _ => none

/-- Compile a range expression into a `SimpleSpec`; `none` embeds the
`ValueError` that the Python library raises on an invalid expression. -/
def SimpleSpec.parse (s : String) : Option SimpleSpec :=
  match s.data with
  | ['*'] => some .star
  | '>' :: '=' :: rest => (parsePartialVersion rest).map .ge
  | '<' :: '=' :: rest => (parsePartialVersion rest).map .le
  | '=' :: '=' :: rest => (parsePartialVersion rest).map .eq
  | '>' :: rest => (parsePartialVersion rest).map .gt
  | '<' :: rest => (parsePartialVersion rest).map .lt
  | rest => (parsePartialVersion rest).map .eq

/-- Membership test `version in spec`. -/
def SimpleSpec.contains (spec : SimpleSpec) (v : Version) : Bool :=
  match spec with
  | .star => true
  | .ge w => versionLe w v
  | .gt w => versionLt w v
  | .le w => versionLe v w
  | .lt w => versionLt v w
  | .eq w => versionBeq v w

/-- A JSON-like value, the shape of schema definition documents: strings,
objects (insertion-ordered key/value lists, like Python dicts) and arrays.
Everything that is neither a string nor an object (the `[]` in the
bad-schema tests) is an `arr`. -/
inductive Node where
  | str (s : String)
  | dict (entries : List (String × Node))
  | arr (items : List Node)

/-- First-match lookup in an association list: Python `d[key]` /
`key in d`. -/
def lookupKey {α : Type} : List (String × α) → String → Option α
  | [], _ => none
  | (k, v) :: rest, key => if k == key then some v else lookupKey rest key

/-- Python `d[key] = value`: replaces the value in place when the key is
present (keeping its position, as CPython dicts do), appends otherwise. -/
def insertVar {α : Type} : List (String × α) → String → α → List (String × α)
  | [], key, v => [(key, v)]
  | (k0, v0) :: rest, key, v =>
    if k0 == key then (key, v) :: rest else (k0, v0) :: insertVar rest key v

/-- Python `d.pop(key)`: returns the value and the dictionary without that
entry; `none` embeds the `KeyError` raised when the key is absent. -/
def popEntry {α : Type} : List (String × α) → String → Option (α × List (String × α))
  | [], _ => none
  | (k, v) :: rest, key =>
    if k == key then some (v, rest)
    else (popEntry rest key).map (fun r => (r.1, (k, v) :: r.2))

/-- Replace the value stored under `key` (no-op when absent); used to embed
mutation of a nested dictionary reachable from the catalog root. -/
def setKey {α : Type} : List (String × α) → String → α → List (String × α)
  | [], _, _ => []
  | (k, v) :: rest, key, nv =>
    if k == key then (key, nv) :: rest else (k, v) :: setKey rest key nv

/-- Python `key.split("-to-")` on the character list: greedy left-to-right
scan for the four-character separator, exactly as `str.split` behaves. -/
def splitOnToSep : List Char → List (List Char)
  | '-' :: 't' :: 'o' :: '-' :: rest =>
    [] :: splitOnToSep rest
  | c :: rest =>
    match splitOnToSep rest with
    | [] => [[c]]
    | h :: t => (c :: h) :: t
  | [] => [[]]

/-- String-level wrapper for `splitOnToSep`. -/
def splitToSep (s : String) : List String :=
  (splitOnToSep s.data).map List.asString

/-- Embeds `Schema` (src/aqt/repo_model.py lines 12-29).  `args` is the list
of declared positional argument names, `allowed_values` the schema-local
allowed-values table, `name_converters` the remaining
`"<source>-to-<target>"` conversion-rule entries in stored order. -/
structure Schema where
  tool_name : String
  schema_name : String
  args : List String
  url_template : String
  allowed_values : List (String × List String)
  name_converters : List (String × Node)

/-- The class attribute `Schema.ALLOWED_VALUES` (src/aqt/repo_model.py
line 13): the global default allowed-values table. -/
def ALLOWED_VALUES : List (String × List String) :=
  [("host", ["windows", "linux", "mac"]), ("bits", ["64", "32"])]

/-- Embeds `Schema.list_allowed_values_for` (src/aqt/repo_model.py lines
71-76): schema-local table first, then the global default table, otherwise
the `KeyError` naming the untracked key. -/
def Schema.list_allowed_values_for (s : Schema) (key : String) : Except Err (List String) :=
  match lookupKey s.allowed_values key with
  | some vs => .ok vs
  | none =>
    match lookupKey ALLOWED_VALUES key with
    | some vs => .ok vs
    | none => .error (.keyError ("Allowed values for the key '" ++ key ++ "' are not tracked."))

/-- Embeds the inner `choose_translation` of `Schema.fill_template`
(src/aqt/repo_model.py lines 34-43).  `semver` is the `Version` bound at
line 62 when the caller's arguments held one (`none` embeds the unbound
local that Python would hit otherwise).  For the key `"semver"` the node's
keys are scanned in stored order as range expressions and the first whose
range holds the version wins; exhausting them raises the `SchemaError`.
For any other key the node is subscripted with the variable's value. -/
def choose_translation (vars : List (String × String)) (semver : Option Version)
    (key : String) (conversion : Node) : Except Err Node :=
  if key == "semver" then
    match semver with
    | none => .error (.nameError "name 'semver' is not defined")
    | some v =>
      match conversion with
      | .dict entries => firstSpecMatch v entries
      | _ => .error (.typeError "items")
  else
    match lookupKey vars key with
    | none => .error (.keyError key)
    | some value =>
      match conversion with
      | .dict entries =>
        match lookupKey entries value with
        | some node => .ok node
        | none => .error (.keyError value)
      | _ => .error (.typeError "subscript")
where
  /-- The `for k, v in _conversion.items()` loop body: compile each key as a
  range expression (a bad expression raises the library's `ValueError`) and
  return the first value whose range holds `v`. -/
  firstSpecMatch (v : Version) : List (String × Node) → Except Err Node
    | [] => .error (.schemaError ("Schema contains no resolution for version " ++ versionToString v))
    | (k, node) :: rest =>
      match SimpleSpec.parse k with
      | none => .error (.valueError ("invalid simple block " ++ k))
      | some spec => if spec.contains v then .ok node else firstSpecMatch v rest

/-- Embeds the inner `recursive_translate` of `Schema.fill_template`
(src/aqt/repo_model.py lines 45-59), with an explicit recursion-depth
budget in place of the Python call stack.  Each recursion step descends
into a strict sub-node of the conversion tree, so the depth is bounded by
the (finite) depth of the schema document; exhausting the budget embeds
CPython's `RecursionError`. -/
def recursiveTranslateF (vars : List (String × String)) (semver : Option Version) :
    Nat → String → Node → Except Err (String × String)
  | 0, _, _ => .error (.valueError "maximum recursion depth exceeded")
  | fuel + 1, translation_key, conversion =>
    match splitToSep translation_key with
    | [_] => .error (.schemaError "Schema contains unrecognized key")
    | [from_, to_] =>
      match choose_translation vars semver from_ conversion with
      | .error e => .error e
      | .ok (.str s) => .ok (to_, s)
      | .ok (.dict entries) =>
        match entries with
        | [(k, v)] => recursiveTranslateF vars semver fuel k v
        | _ => .error (.schemaError "Translator object should only have one key available")
      | .ok (.arr _) => .error (.schemaError "Translator object is neither a string nor a dictionary")
    | _ => .error (.valueError "too many values to unpack (expected 2)")

/-- The function `recursive_translate` with its depth budget fixed at
CPython's default recursion limit. -/
def recursive_translate (vars : List (String × String)) (semver : Option Version)
    (translation_key : String) (conversion : Node) : Except Err (String × String) :=
  recursiveTranslateF vars semver 1000 translation_key conversion

/-- Embeds Python `template.format(**vars)` as used at line 69 of
src/aqt/repo_model.py: a single left-to-right scan; `\x7bname\x7d` is
replaced by the variable's value (a missing name embeds the `KeyError`),
doubled braces denote literal braces, and a stray single brace embeds the
`ValueError`.  The second argument is `some acc` while scanning a
replacement-field name (accumulated in reverse), `none` outside fields.
Format specifications after a colon are not modelled: no template in the
repository uses them, a name holding a colon simply fails lookup. -/
def formatGo (vars : List (String × String)) : List Char → Option (List Char) → Except Err (List Char)
  | [], field =>
    match field with
    | none => .ok []
    | some _ => .error (.valueError "Single brace encountered in format string")
  | c :: cs, field =>
    match field with
    | none =>
      if c == Char.ofNat 123 then
        match cs with
        | [] => .error (.valueError "Single brace encountered in format string")
        | c2 :: cs2 =>
          if c2 == Char.ofNat 123 then
            (formatGo vars cs2 none).map (fun r => Char.ofNat 123 :: r)
          else if c2 == Char.ofNat 125 then
            match lookupKey vars "" with
            | none => .error (.keyError "")
            | some v => (formatGo vars cs2 none).map (fun r => v.data ++ r)
          else formatGo vars cs2 (some [c2])
      else if c == Char.ofNat 125 then
        match cs with
        | [] => .error (.valueError "Single brace encountered in format string")
        | c2 :: cs2 =>
          if c2 == Char.ofNat 125 then
            (formatGo vars cs2 none).map (fun r => Char.ofNat 125 :: r)
          else .error (.valueError "Single brace encountered in format string")
      else (formatGo vars cs none).map (fun r => c :: r)
    | some acc =>
      if c == Char.ofNat 125 then
        match lookupKey vars acc.reverse.asString with
        | none => .error (.keyError acc.reverse.asString)
        | some v => (formatGo vars cs none).map (fun r => v.data ++ r)
      else formatGo vars cs (some (c :: acc))

/-- String-level wrapper for `formatGo`. -/
def formatTemplate (template : String) (vars : List (String × String)) : Except Err String :=
  (formatGo vars template.data none).map List.asString

/-- Embeds lines 63-64 of src/aqt/repo_model.py: the derived variable
rendered as major-dot-minor. -/
def versionMajorMinor (v : Version) : String :=
  toString v.major ++ "." ++ toString v.minor

/-- Embeds line 64 of src/aqt/repo_model.py: the derived variable rendered
as major-underscore-minor-underscore-patch. -/
def versionUnderscores (v : Version) : String :=
  toString v.major ++ "_" ++ toString v.minor ++ "_" ++ toString v.patch

/-- Embeds the loop at lines 65-67 of src/aqt/repo_model.py: conversion
rules are applied in the catalog's stored order, each one translating the
current variable mapping and binding its target variable before the next
rule runs. -/
def runConversions (semver : Option Version) :
    List (String × Node) → List (String × String) → Except Err (List (String × String))
  | [], vars => .ok vars
  | (key, conversion) :: rest, vars =>
    match recursive_translate vars semver key conversion with
    | .error e => .error e
    | .ok (variable_key, value) => runConversions semver rest (insertVar vars variable_key value)

/-- Embeds `Schema.fill_template` (src/aqt/repo_model.py lines 31-69)
together with its frame behaviour.  Line 32 copies the caller's `args`
dictionary into a fresh `variables` dictionary and every later write
(derived semver variables, conversion results) targets only the copy, so
the pair returned here is the function's result together with the caller's
dictionary as observable after the call. -/
def fillTemplateSt (s : Schema) (args : List (String × String)) :
    Except Err String × List (String × String) :=
  let vars := args
  let res : Except Err String :=
    match lookupKey args "semver" with
    | some sstr =>
      match Version.parse sstr with
      | none => .error (.valueError ("Invalid version string: '" ++ sstr ++ "'"))
      | some semver =>
        let vars1 := insertVar vars "major_minor_semver" (versionMajorMinor semver)
        let vars2 := insertVar vars1 "semver_underscores" (versionUnderscores semver)
        match runConversions (some semver) s.name_converters vars2 with
        | .error e => .error e
        | .ok varsF => formatTemplate s.url_template varsF
    | none =>
      match runConversions none s.name_converters vars with
      | .error e => .error e
      | .ok varsF => formatTemplate s.url_template varsF
  (res, args)

/-- The value computed by `Schema.fill_template`. -/
def Schema.fill_template (s : Schema) (args : List (String × String)) : Except Err String :=
  (fillTemplateSt s args).1

mutual

/-- Embeds the inner `helper` of `Schema.yield_urls` (src/aqt/repo_model.py
lines 83-97), recursing over the zipped list of (positional value, declared
argument name) pairs with the bindings accumulated so far.  The Python
generator's slate pattern (assign, recurse, pop) is embedded by threading
the binding dictionary functionally, and the generator's lazily yielded
sequence is embedded as the full list of yields, or the first exception it
raises. -/
def yieldUrlsHelper (s : Schema) : List (String × String) → List (String × String) → Except Err (List String)
  | [], args_dict =>
    match s.fill_template args_dict with
    | .error e => .error e
    | .ok url => .ok [s.tool_name ++ "/" ++ url]
  | (arg, arg_name) :: rest, args_dict =>
    if arg == "all" then
      match s.list_allowed_values_for arg_name with
      | .error e => .error e
      | .ok allowed => yieldUrlsAll s rest args_dict arg_name allowed
    else yieldUrlsHelper s rest (insertVar args_dict arg_name arg)
termination_by pairs _ => (pairs.length, 0)

/-- The `for allowed_value in ...` loop at lines 90-92: each allowed value
is bound in turn and the remaining positions expanded, concatenating the
yields in order. -/
def yieldUrlsAll (s : Schema) (rest : List (String × String))
    (args_dict : List (String × String)) (arg_name : String) : List String → Except Err (List String)
  | [] => .ok []
  | v :: vs =>
    match yieldUrlsHelper s rest (insertVar args_dict arg_name v) with
    | .error e => .error e
    | .ok urls =>
      match yieldUrlsAll s rest args_dict arg_name vs with
      | .error e => .error e
      | .ok more => .ok (urls ++ more)
termination_by vs => (rest.length, vs.length + 1)

end

/-- Embeds `Schema.yield_urls` (src/aqt/repo_model.py lines 78-99): the
arity guard followed by the slate expansion.  The arity check sits at the
top of the Python generator's body, so it fires on first consumption; the
embedding evaluates the sequence eagerly. -/
def Schema.yield_urls (s : Schema) (args : List String) : Except Err (List String) :=
  if args.length != s.args.length then .error (.cliInputError "Wrong number of arguments!")
  else yieldUrlsHelper s (args.zip s.args) []

/-- Embeds `RepoModel` (src/aqt/repo_model.py lines 102-104): the parsed
JSON definition document.  `json.loads` itself is external; the embedding
starts from the parsed `Node`. -/
structure RepoModel where
  definition : Node

/-- Coerce a JSON array of strings (the `args` entry) to a string list. -/
def asStringList : Node → Option (List String)
  | .arr items =>
    items.mapM (fun n => match n with | .str s => some s | _ => none)
  | _ => none

/-- Coerce a JSON object of string arrays (the `allowed_values` entry) to
an allowed-values table. -/
def asAllowedValues : Node → Option (List (String × List String))
  | .dict entries =>
    entries.mapM (fun kv => (asStringList kv.2).map (fun l => (kv.1, l)))
  | _ => none

/-- Write a (possibly popped-down) schema object back under
`definition[tool_name][schema_name]`; embeds the fact that the Python
`s.pop(...)` calls in `get_schema` mutate the dictionary object stored
inside `self.definition` in place. -/
def writeSchemaBack (m : RepoModel) (tool_name schema_name : String)
    (s : List (String × Node)) : RepoModel :=
  match m.definition with
  | .dict tools =>
    match lookupKey tools tool_name with
    | some (.dict schemas) =>
      ⟨.dict (setKey tools tool_name (.dict (setKey schemas schema_name (.dict s))))⟩
    | _ => m
  | _ => m

/-- Embeds `RepoModel.get_schema` (src/aqt/repo_model.py lines 112-121).
The Python code takes a reference `s` to the stored schema object and calls
`s.pop("args")`, `s.pop("url_template")` and `s.pop("allowed_values", {})`
on it, so the three reserved keys are removed from the catalog's stored
definition as a side effect; the remaining entries become the conversion
rules.  The embedding returns the result together with the catalog as
observable after the call.  The typed coercions of `args`, `url_template`
and `allowed_values` (which Python defers to later use sites) must succeed
for a well-shaped document; a shape mismatch embeds a `TypeError`. -/
def RepoModel.get_schema (m : RepoModel) (tool_name schema : String) :
    Except Err Schema × RepoModel :=
  match m.definition with
  | .dict tools =>
    match lookupKey tools tool_name with
    | some (.dict schemas) =>
      match lookupKey schemas schema with
      | some (.dict s) =>
        match popEntry s "args" with
        | none => (.error (.keyError "args"), m)
        | some (argsNode, s1) =>
          match popEntry s1 "url_template" with
          | none => (.error (.keyError "url_template"), writeSchemaBack m tool_name schema s1)
          | some (urlNode, s2) =>
            let avs3 : Node × List (String × Node) :=
              match popEntry s2 "allowed_values" with
              | none => (Node.dict [], s2)
              | some (av, s3) => (av, s3)
            let m1 := writeSchemaBack m tool_name schema avs3.2
            match asStringList argsNode, urlNode, asAllowedValues avs3.1 with
            | some argNames, .str template, some av =>
              (.ok ⟨tool_name, schema, argNames, template, av, avs3.2⟩, m1)
            | _, _, _ => (.error (.typeError "unexpected schema document shape"), m1)
      | some _ => (.error (.typeError "schema entry is not an object"), m)
      | none => (.error (.keyError schema), m)
    | some _ => (.error (.typeError "tool entry is not an object"), m)
    | none => (.error (.keyError tool_name), m)
  | _ => (.error (.typeError "definition is not an object"), m)

/-- Embeds `AqtException` (src/aqt/exceptions.py lines 25-29) as far as its
formatting behaviour is concerned: the base message and the
`suggested_action` list. -/
structure AqtException where
  message : String
  suggested_action : List String

/-- Python `"\n".join(items)`. -/
def joinLines : List String → String
  | [] => ""
  | [x] => x
  | x :: xs => x ++ "\n" ++ joinLines xs

/-- Embeds `AqtException._format_suggested_follow_up` (src/aqt/exceptions.py
lines 37-40): a banner of thirty `=`, the text `Suggested follow-up:`,
thirty more `=`, then each suggestion on its own line prefixed `* `. -/
def AqtException.formatSuggestedFollowUp (e : AqtException) : String :=
  (List.asString (List.replicate 30 '=') ++ "Suggested follow-up:" ++
      List.asString (List.replicate 30 '=') ++ "\n") ++
    joinLines (e.suggested_action.map (fun suggestion => "* " ++ suggestion))

/-- Embeds `AqtException.__format__` (src/aqt/exceptions.py lines 31-35):
the base message alone when `suggested_action` is empty (Python falsiness
of the list), otherwise the base message, a newline, and the follow-up
block. -/
def AqtException.format_ (e : AqtException) : String :=
  match e.suggested_action with
  | [] => e.message
  | _ :: _ => e.message ++ "\n" ++ e.formatSuggestedFollowUp

/-- Modelled from the spec: `VersionGroup` (`Versions` in `aqt/metadata.py`,
not under `src/`): "ordered sequence of buckets, each bucket a non-empty
ordered sequence of Version sharing the same minor number".  Only the
bucket contents matter to the operations embedded here. -/
structure Versions where
  versions : List (List Version)

/-- Modelled from the spec: "flatten to a single ascending sequence" — the
concatenation of the buckets in order, never reordered. -/
def Versions.flattened (v : Versions) : List Version :=
  v.versions.flatten

/-- Modelled from the spec: "`latest()` = last version of last bucket, or
absent if empty". -/
def Versions.latest (v : Versions) : Option Version :=
  match v.versions.getLast? with
  | none => none
  | some bucket => bucket.getLast?

/-- The failure kinds of the fetch layer: `ArchiveConnectionError` vs
`ArchiveDownloadError` (src/aqt/exceptions.py lines 43-52). -/
inductive FetchErr where
  | connection
  | download
deriving DecidableEq, Repr

/-- The primary mirror base URL. -/
def baseUrl : String := "https://download.qt.io/"

/-- The designated fallback mirror base URL. -/
def fallbackUrl : String := "https://mirrors.ocf.berkeley.edu/qt/"

/-- The trace of one fetch: its outcome and the requests it issued,
in order. -/
structure FetchTrace where
  result : Except FetchErr String
  requested : List String

/-- Modelled from the spec: `MetadataFactory.fetch_http` (in
`aqt/metadata.py`, not under `src/`): "issues a request against a primary
base URL; on failure (either a download-layer failure or a connectivity
failure) retries exactly once against a designated fallback base URL; if
the fallback also fails, propagates the same failure kind that the primary
attempt produced".  `getUrl` is the underlying request function; the trace
records every request issued. -/
def fetch_http (getUrl : String → Except FetchErr String) (rest_of_url : String) : FetchTrace :=
  match getUrl (baseUrl ++ rest_of_url) with
  | .ok content => ⟨.ok content, [baseUrl ++ rest_of_url]⟩
  | .error primaryErr =>
    match getUrl (fallbackUrl ++ rest_of_url) with
    | .ok content => ⟨.ok content, [baseUrl ++ rest_of_url, fallbackUrl ++ rest_of_url]⟩
    | .error _ => ⟨.error primaryErr, [baseUrl ++ rest_of_url, fallbackUrl ++ rest_of_url]⟩

/-! Spec-side definitions for the refinement claim about `yield_urls`,
written from the specification's words rather than from the source. -/

/-- Written from the spec: the cartesian product of positional choices.
Positional values are "aligned 1:1 with the schema's declared argument
names; the sentinel value `all` at a position expands to every allowed
value for that argument name (via `allowedValuesFor`), producing the
cartesian product across all all-marked positions, enumerated with the
rightmost/last-declared argument varying fastest".  Each combination is
returned as the name-to-value binding list in declaration order. -/
def expandCombos (s : Schema) : List (String × String) → Except Err (List (List (String × String)))
  | [] => .ok [[]]
  | (value, name) :: rest =>
    match (if value == "all" then s.list_allowed_values_for name else .ok [value]) with
    | .error e => .error e
    | .ok options =>
      match expandCombos s rest with
      | .error e => .error e
      | .ok tails => .ok (options.flatMap (fun o => tails.map (fun tail => (name, o) :: tail)))

/-- Written from the spec: "each complete combination yields
`<product>/<evaluated template>`", in enumeration order. -/
def evalCombos (s : Schema) : List (List (String × String)) → Except Err (List String)
  | [] => .ok []
  | combo :: rest =>
    match s.fill_template combo with
    | .error e => .error e
    | .ok url =>
      match evalCombos s rest with
      | .error e => .error e
      | .ok more => .ok ((s.tool_name ++ "/" ++ url) :: more)

/-- Written from the spec: `RuleSchema.expandAll(positionalValues)`, which
"must fail with `InvalidArity` if the positional count does not match the
schema's declared argument count" and otherwise enumerates the evaluated
cartesian product. -/
def expandAll (s : Schema) (positionalValues : List String) : Except Err (List String) :=
  if positionalValues.length != s.args.length then
    .error (.cliInputError "Wrong number of arguments!")
  else
    match expandCombos s (positionalValues.zip s.args) with
    | .error e => .error e
    | .ok combos => evalCombos s combos

/-- Test whether an `Except` succeeded. -/
def exceptIsOk {ε α : Type} : Except ε α → Bool
  | .ok _ => true
  | .error _ => false

/-! Concrete fixtures, taken from `src/tests/test_repo_model.py`. -/

/-- The `alt` schema of the `qtdesignstudio` tool from the test fixture:
no conversion rules, a schema-local allowed-values table, and a template
using both derived semver variables. -/
def altSchema : Schema :=
  { tool_name := "qtdesignstudio"
    schema_name := "alt"
    args := ["semver", "file_ext"]
    url_template := "\x7bmajor_minor_semver\x7d/\x7bsemver_underscores\x7d/qt-designstudio.\x7bfile_ext\x7d"
    allowed_values := [("file_ext", ["1", "txt", "zip"])]
    name_converters := [] }

/-- The `default` schema of the `qtdesignstudio` tool from the test
fixture: two exact-match conversion rules. -/
def defaultSchema : Schema :=
  { tool_name := "qtdesignstudio"
    schema_name := "default"
    args := ["semver", "host"]
    url_template := "\x7bsemver\x7d/qt-designstudio-\x7barch\x7d-\x7bsemver\x7d-community.\x7bfile_ext\x7d"
    allowed_values := []
    name_converters :=
      [("host-to-arch", .dict
          [("windows", .str "windows-x86"),
           ("mac", .str "mac-x86_64"),
           ("linux", .str "linux-x86_64")]),
       ("host-to-file_ext", .dict
          [("windows", .str "exe"),
           ("mac", .str "dmg"),
           ("linux", .str "run")])] }

/-- The `binary` schema of the `qt-installer-framework` tool from the test
fixture: nested conversion rules resolved through host, bits and
version-range matching. -/
def binarySchema : Schema :=
  { tool_name := "qt-installer-framework"
    schema_name := "binary"
    args := ["semver", "host", "bits"]
    url_template := "\x7bsemver\x7d/QtInstallerFramework-\x7barch\x7d.zip"
    allowed_values := []
    name_converters :=
      [("host-to-arch", .dict
          [("mac", .dict
              [("semver-to-arch", .dict
                  [(">=4.1", .str "macOS-x86_64"), ("<4.1", .str "mac-x64")])]),
           ("windows", .dict
              [("bits-to-arch", .dict
                  [("64", .dict
                      [("semver-to-arch", .dict
                          [(">=4.1", .str "Windows-x86_64"), ("<4.1", .str "win-x64")])]),
                   ("32", .dict
                      [("semver-to-arch", .dict
                          [(">=4.1", .str "Windows-x86"), ("<4.1", .str "win32")])])])]),
           ("linux", .str "linux-x64")])] }

/-- A small schema catalog document shaped like the test fixture, used to
exercise `RepoModel.get_schema`. -/
def tinyCatalog : RepoModel :=
  ⟨.dict
    [("qtdesignstudio", .dict
        [("alt", .dict
            [("args", .arr [.str "semver", .str "file_ext"]),
             ("allowed_values", .dict [("file_ext", .arr [.str "1", .str "txt", .str "zip"])]),
             ("url_template", .str "\x7bmajor_minor_semver\x7d/\x7bsemver_underscores\x7d/qt-designstudio.\x7bfile_ext\x7d")])])]⟩

/-! ## Claim theorems -/

/-- C10: `Schema.fill_template` never modifies its input variable mapping:
for every argument dictionary, whether evaluation returns a URL or fails,
the dictionary holds the same key-value pairs after the call as before —
all derived and converted variables are bound only in the internal copy
made at line 32 of src/aqt/repo_model.py. -/
theorem claim_C10 (s : Schema) (args : List (String × String)) :
    (fillTemplateSt s args).2 = args :=
  rfl

/-- C1: refuted evaluation.  The claim says extracting a schema leaves the
catalog's stored definition unchanged and that two successive extractions
of the same (product, variant) pair both succeed with equal results.  On
the embedded `RepoModel.get_schema`, the first extraction from
`tinyCatalog` succeeds, but it pops the reserved keys out of the stored
definition, so the second identical extraction raises `KeyError("args")`:
the code contradicts the documented read-only contract. -/
theorem claim_C1 :
    (tinyCatalog.get_schema "qtdesignstudio" "alt").1 = .ok altSchema ∧
    ((tinyCatalog.get_schema "qtdesignstudio" "alt").2.get_schema "qtdesignstudio" "alt").1 =
      .error (.keyError "args") ∧
    (tinyCatalog.get_schema "qtdesignstudio" "alt").2 ≠ tinyCatalog := by
  refine ⟨rfl, rfl, fun h => ?_⟩
  have h2 := congrArg
    (fun m => exceptIsOk (RepoModel.get_schema m "qtdesignstudio" "alt").1) h
  exact absurd h2 (by decide)

/-- C9: formatting an error value with no suggested actions yields exactly
its base message and no remediation block; with a non-empty suggestion list
it yields the base message, then a banner line of the text
`Suggested follow-up:` flanked by thirty `=` on each side, then each
suggestion on its own line prefixed by `* ` — checked in general and
against the exact banner string pinned by the tests. -/
theorem claim_C9 (msg : String) (suggestions : List String) :
    (AqtException.format_ ⟨msg, []⟩ = msg) ∧
    (suggestions ≠ [] →
      AqtException.format_ ⟨msg, suggestions⟩ =
        msg ++ "\n" ++
          (List.asString (List.replicate 30 '=') ++ "Suggested follow-up:" ++
            List.asString (List.replicate 30 '=') ++ "\n") ++
          joinLines (suggestions.map (fun suggestion => "* " ++ suggestion))) ∧
    (AqtException.format_ ⟨"m", ["a", "b"]⟩ =
      "m\n==============================Suggested follow-up:==============================\n* a\n* b") := by
  refine ⟨rfl, fun h => ?_, rfl⟩
  match suggestions with
  | [] => exact absurd rfl h
  | _ :: _ =>
    simp [AqtException.format_, AqtException.formatSuggestedFollowUp, String.append_assoc]

/-- Closed witness for C9's conditional conjunct: the two-suggestion case. -/
theorem claim_C9_witness :
    AqtException.format_ ⟨"m", ["a", "b"]⟩ =
      "m" ++ "\n" ++
        (List.asString (List.replicate 30 '=') ++ "Suggested follow-up:" ++
          List.asString (List.replicate 30 '=') ++ "\n") ++
        joinLines (["a", "b"].map (fun suggestion => "* " ++ suggestion)) :=
  (claim_C9 "m" ["a", "b"]).2.1 (by simp)

/-- C8: `list_allowed_values_for` returns the schema-local allowed-values
list when the key is present in the schema's own table; otherwise the
global default table entry (`host` and `bits`); and when the key is in
neither, it fails with the "not tracked" failure naming the key. -/
theorem claim_C8 (s : Schema) (key : String) :
    (∀ vs, lookupKey s.allowed_values key = some vs →
      s.list_allowed_values_for key = .ok vs) ∧
    (lookupKey s.allowed_values key = none →
      (key = "host" → s.list_allowed_values_for key = .ok ["windows", "linux", "mac"]) ∧
      (key = "bits" → s.list_allowed_values_for key = .ok ["64", "32"]) ∧
      (key ≠ "host" → key ≠ "bits" →
        s.list_allowed_values_for key =
          .error (.keyError ("Allowed values for the key '" ++ key ++ "' are not tracked.")))) := by
  constructor
  · intro vs hvs
    simp [Schema.list_allowed_values_for, hvs]
  · intro hnone
    refine ⟨fun hk => ?_, fun hk => ?_, fun h1 h2 => ?_⟩
    · subst hk; simp [Schema.list_allowed_values_for, hnone, ALLOWED_VALUES, lookupKey]
    · subst hk; simp [Schema.list_allowed_values_for, hnone, ALLOWED_VALUES, lookupKey]
    · have b1 : (("host" : String) == key) = false :=
        beq_eq_false_iff_ne.mpr (Ne.symm h1)
      have b2 : (("bits" : String) == key) = false :=
        beq_eq_false_iff_ne.mpr (Ne.symm h2)
      simp [Schema.list_allowed_values_for, hnone, ALLOWED_VALUES, lookupKey, b1, b2]

/-- Closed witness for C8: the fixture's `alt` schema resolves its local
`file_ext` table, falls back to the global `host` table, and reports `zzz`
as not tracked. -/
theorem claim_C8_witness :
    altSchema.list_allowed_values_for "file_ext" = .ok ["1", "txt", "zip"] ∧
    altSchema.list_allowed_values_for "host" = .ok ["windows", "linux", "mac"] ∧
    altSchema.list_allowed_values_for "zzz" =
      .error (.keyError ("Allowed values for the key '" ++ "zzz" ++ "' are not tracked.")) :=
  ⟨(claim_C8 altSchema "file_ext").1 ["1", "txt", "zip"] rfl,
   ((claim_C8 altSchema "host").2 rfl).1 rfl,
   ((claim_C8 altSchema "zzz").2 rfl).2.2 (by decide) (by decide)⟩

/-- Appending the same path to the two distinct mirror bases yields two
distinct URLs. -/
theorem base_ne_fallback (path : String) : baseUrl ++ path ≠ fallbackUrl ++ path := by
  intro h
  have hdata : (baseUrl ++ path).data = (fallbackUrl ++ path).data := congrArg String.data h
  rw [String.data_append, String.data_append] at hdata
  have hbase : baseUrl.data = fallbackUrl.data := List.append_cancel_right hdata
  exact absurd (String.ext hbase) (by decide)

/-- C6: for every fetch whose primary attempt fails (with either failure
kind), exactly one further request is issued, against the fallback base
URL, so exactly two distinct requests are issued in total; a successful
fallback's content is returned, and when both attempts fail the propagated
error has the primary attempt's failure kind, whatever kind the fallback
attempt failed with. -/
theorem claim_C6 (getUrl : String → Except FetchErr String) (path : String)
    (primaryErr : FetchErr) (h : getUrl (baseUrl ++ path) = .error primaryErr) :
    (fetch_http getUrl path).requested = [baseUrl ++ path, fallbackUrl ++ path] ∧
    baseUrl ++ path ≠ fallbackUrl ++ path ∧
    (∀ content, getUrl (fallbackUrl ++ path) = .ok content →
      (fetch_http getUrl path).result = .ok content) ∧
    (∀ fallbackErr, getUrl (fallbackUrl ++ path) = .error fallbackErr →
      (fetch_http getUrl path).result = .error primaryErr) := by
  refine ⟨?_, base_ne_fallback path, ?_, ?_⟩
  · unfold fetch_http
    rw [h]
    cases h2 : getUrl (fallbackUrl ++ path) <;> rfl
  · intro content h2
    unfold fetch_http
    rw [h, h2]
  · intro fallbackErr h2
    unfold fetch_http
    rw [h, h2]

/-- A request function for the witness: the primary URL fails with a
download error, anything else succeeds. -/
def mockGetUrl (url : String) : Except FetchErr String :=
  if url == baseUrl ++ "x" then .error .download else .ok "some_html_content"

/-- Closed witness for C6: with `mockGetUrl`, both requests are issued and
the fallback's content is returned. -/
theorem claim_C6_witness :
    (fetch_http mockGetUrl "x").requested = [baseUrl ++ "x", fallbackUrl ++ "x"] ∧
    (fetch_http mockGetUrl "x").result = .ok "some_html_content" := by
  have h := claim_C6 mockGetUrl "x" .download rfl
  exact ⟨h.1, h.2.2.1 "some_html_content" rfl⟩

/-- When every key of the node parses to a range that does not contain the
bound version, the scan reports the missing resolution. -/
theorem firstSpecMatch_no_resolution (v : Version) (entries : List (String × Node))
    (h : ∀ p ∈ entries, ∃ sp, SimpleSpec.parse p.1 = some sp ∧ sp.contains v = false) :
    choose_translation.firstSpecMatch v entries =
      .error (.schemaError ("Schema contains no resolution for version " ++ versionToString v)) := by
  induction entries with
  | nil => rfl
  | cons p rest ih =>
    cases p with
    | mk k node =>
      obtain ⟨sp, hp, hc⟩ := h (k, node) (List.mem_cons_self _ _)
      have hrest := ih (fun q hq => h q (List.mem_cons_of_mem _ hq))
      simp only at hp hc
      simp [choose_translation.firstSpecMatch, hp, hc, hrest]

/-- The scan selects the value of the first key whose range contains the
bound version, in stored order. -/
theorem firstSpecMatch_selects_first (v : Version) (pre rest : List (String × Node))
    (k : String) (node : Node) (spec : SimpleSpec)
    (hpre : ∀ p ∈ pre, ∃ sp, SimpleSpec.parse p.1 = some sp ∧ sp.contains v = false)
    (hk : SimpleSpec.parse k = some spec) (hc : spec.contains v = true) :
    choose_translation.firstSpecMatch v (pre ++ (k, node) :: rest) = .ok node := by
  induction pre with
  | nil =>
    simp only [List.nil_append, choose_translation.firstSpecMatch]
    rw [hk]
    simp [hc]
  | cons p pre' ih =>
    cases p with
    | mk k0 node0 =>
      obtain ⟨sp, hp, hcf⟩ := hpre (k0, node0) (List.mem_cons_self _ _)
      have hrest := ih (fun q hq => hpre q (List.mem_cons_of_mem _ hq))
      simp only at hp hcf
      simp [choose_translation.firstSpecMatch, hp, hcf, hrest]

/-- C2: for a conversion rule whose source variable is the version
variable, evaluation scans the rule node's keys as version-range
expressions in their stored order and selects the value of the first key
whose range contains the bound version; if no key's range contains it,
evaluation fails with a `SchemaError` whose message is exactly
`Schema contains no resolution for version <value>`. -/
theorem claim_C2 (vars : List (String × String)) (v : Version)
    (entries pre rest : List (String × Node)) (k : String) (node : Node) (spec : SimpleSpec) :
    ((∀ p ∈ entries, ∃ sp, SimpleSpec.parse p.1 = some sp ∧ sp.contains v = false) →
      choose_translation vars (some v) "semver" (.dict entries) =
        .error (.schemaError ("Schema contains no resolution for version " ++ versionToString v))) ∧
    ((∀ p ∈ pre, ∃ sp, SimpleSpec.parse p.1 = some sp ∧ sp.contains v = false) →
      SimpleSpec.parse k = some spec → spec.contains v = true →
      choose_translation vars (some v) "semver" (.dict (pre ++ (k, node) :: rest)) = .ok node) := by
  constructor
  · intro h
    simp only [choose_translation, if_pos rfl]
    exact firstSpecMatch_no_resolution v entries h
  · intro hpre hk hc
    simp only [choose_translation, if_pos rfl]
    exact firstSpecMatch_selects_first v pre rest k node spec hpre hk hc

/-- Closed witness for C2, shaped after the bad-schema tests: the table
with single key `>1.0.0` has no resolution for `1.0.0`, and the framework
table resolves `4.1.0` to its first matching entry. -/
theorem claim_C2_witness :
    choose_translation [] (some ⟨1, 0, 0⟩) "semver" (.dict [(">1.0.0", .str "")]) =
      .error (.schemaError ("Schema contains no resolution for version " ++ versionToString ⟨1, 0, 0⟩)) ∧
    choose_translation [] (some ⟨4, 1, 0⟩) "semver"
        (.dict [(">=4.1", .str "macOS-x86_64"), ("<4.1", .str "mac-x64")]) =
      .ok (.str "macOS-x86_64") := by
  constructor
  · refine (claim_C2 [] ⟨1, 0, 0⟩ [(">1.0.0", .str "")] [] [] "" (.str "") .star).1 ?_
    intro p hp
    simp only [List.mem_singleton] at hp
    subst hp
    exact ⟨.gt ⟨1, 0, 0⟩, rfl, rfl⟩
  · refine (claim_C2 [] ⟨4, 1, 0⟩ [] [] [("<4.1", .str "mac-x64")] ">=4.1"
      (.str "macOS-x86_64") (.ge ⟨4, 1, 0⟩)).2 ?_ rfl rfl
    intro p hp
    simp at hp

/-- One-step unfolding of `recursive_translate`. -/
theorem recursive_translate_eq (vars : List (String × String)) (sv : Option Version)
    (tk : String) (conv : Node) :
    recursive_translate vars sv tk conv =
      (match splitToSep tk with
       | [_] => .error (.schemaError "Schema contains unrecognized key")
       | [from_, to_] =>
         match choose_translation vars sv from_ conv with
         | .error e => .error e
         | .ok (.str s) => .ok (to_, s)
         | .ok (.dict entries) =>
           match entries with
           | [(k, v)] => recursiveTranslateF vars sv 999 k v
           | _ => .error (.schemaError "Translator object should only have one key available")
         | .ok (.arr _) => .error (.schemaError "Translator object is neither a string nor a dictionary")
       | _ => .error (.valueError "too many values to unpack (expected 2)")) :=
  rfl

/-- C5: the three malformed-schema failures of rule evaluation: a
conversion-rule key without the `-to-` separator is the unrecognized-key
`SchemaError`; a resolved translation value that is neither a string nor a
dictionary (an array) is the type-mismatch `SchemaError`; and a resolved
nested dictionary whose number of keys differs from one is the
one-key-violation `SchemaError`. -/
theorem claim_C5 (vars : List (String × String)) (sv : Option Version)
    (tk : String) (conv : Node) :
    (∀ x, splitToSep tk = [x] →
      recursive_translate vars sv tk conv = .error (.schemaError "Schema contains unrecognized key")) ∧
    (∀ f t items, splitToSep tk = [f, t] →
      choose_translation vars sv f conv = .ok (.arr items) →
      recursive_translate vars sv tk conv =
        .error (.schemaError "Translator object is neither a string nor a dictionary")) ∧
    (∀ f t entries, splitToSep tk = [f, t] →
      choose_translation vars sv f conv = .ok (.dict entries) → entries.length ≠ 1 →
      recursive_translate vars sv tk conv =
        .error (.schemaError "Translator object should only have one key available")) := by
  refine ⟨fun x hx => ?_, fun f t items hs hc => ?_, fun f t entries hs hc hlen => ?_⟩
  · rw [recursive_translate_eq, hx]
  · rw [recursive_translate_eq, hs]
    dsimp only
    rw [hc]
  · rw [recursive_translate_eq, hs]
    dsimp only
    rw [hc]
    match entries, hlen with
    | [], _ => rfl
    | [(k, v)], h => exact absurd rfl h
    | e1 :: e2 :: es, _ => rfl

/-- Closed witness for C5: the three failure shapes at the bad-schema
fixtures from the tests. -/
theorem claim_C5_witness :
    recursive_translate [("semver", "1.0.0")] (some ⟨1, 0, 0⟩) "unrecognized_key" (.dict []) =
      .error (.schemaError "Schema contains unrecognized key") ∧
    recursive_translate [("semver", "1.0.0")] (some ⟨1, 0, 0⟩) "semver-to-ext"
        (.dict [("1.0.0", .arr [])]) =
      .error (.schemaError "Translator object is neither a string nor a dictionary") ∧
    recursive_translate [("host", "windows")] none "host-to-arch"
        (.dict [("windows", .dict [])]) =
      .error (.schemaError "Translator object should only have one key available") :=
  ⟨(claim_C5 [("semver", "1.0.0")] (some ⟨1, 0, 0⟩) "unrecognized_key" (.dict [])).1
      "unrecognized_key" rfl,
   (claim_C5 [("semver", "1.0.0")] (some ⟨1, 0, 0⟩) "semver-to-ext"
      (.dict [("1.0.0", .arr [])])).2.1 "semver" "ext" [] rfl rfl,
   (claim_C5 [("host", "windows")] none "host-to-arch"
      (.dict [("windows", .dict [])])).2.2 "host" "arch" [] rfl rfl (by decide)⟩

/-- C4: whenever the version variable `semver` is bound to a parseable
version, evaluation derives the two additional variables — one formatted
`<major>.<minor>` and one formatted `<major>_<minor>_<patch>` — and
substitutes all original plus derived plus converted variables into the URL
template by name (stated in full for conversion-free schemas, where the
variable mapping fed to the template is exactly the caller's bindings plus
the two derivations); the claim's worked examples, which do exercise
conversions, are checked concretely against the fixture schemas. -/
theorem claim_C4 :
    (∀ (s : Schema) (args : List (String × String)) (sstr : String) (v : Version),
      s.name_converters = [] →
      lookupKey args "semver" = some sstr →
      Version.parse sstr = some v →
      s.fill_template args =
        formatTemplate s.url_template
          (insertVar
            (insertVar args "major_minor_semver"
              (toString v.major ++ "." ++ toString v.minor))
            "semver_underscores"
            (toString v.major ++ "_" ++ toString v.minor ++ "_" ++ toString v.patch))) ∧
    altSchema.fill_template [("semver", "1.2.6"), ("file_ext", "txt")] =
      .ok "1.2/1_2_6/qt-designstudio.txt" ∧
    binarySchema.fill_template [("semver", "4.1.0"), ("host", "mac"), ("bits", "64")] =
      .ok "4.1.0/QtInstallerFramework-macOS-x86_64.zip" ∧
    binarySchema.fill_template [("semver", "4.0.9"), ("host", "mac"), ("bits", "64")] =
      .ok "4.0.9/QtInstallerFramework-mac-x64.zip" ∧
    binarySchema.fill_template [("semver", "4.1.9"), ("host", "windows"), ("bits", "64")] =
      .ok "4.1.9/QtInstallerFramework-Windows-x86_64.zip" ∧
    binarySchema.fill_template [("semver", "4.0.9"), ("host", "windows"), ("bits", "64")] =
      .ok "4.0.9/QtInstallerFramework-win-x64.zip" := by
  refine ⟨?_, rfl, rfl, rfl, rfl, rfl⟩
  intro s args sstr v hconv hlk hparse
  simp [Schema.fill_template, fillTemplateSt, hlk, hparse, hconv, runConversions,
    versionMajorMinor, versionUnderscores]

/-- Closed witness for C4's general conjunct: the fixture's `alt` schema at
semver `1.2.6` evaluates through the two derived variables. -/
theorem claim_C4_witness :
    altSchema.fill_template [("semver", "1.2.6"), ("file_ext", "txt")] =
      formatTemplate altSchema.url_template
        (insertVar
          (insertVar [("semver", "1.2.6"), ("file_ext", "txt")] "major_minor_semver" "1.2")
          "semver_underscores" "1_2_6") :=
  claim_C4.1 altSchema [("semver", "1.2.6"), ("file_ext", "txt")] "1.2.6" ⟨1, 2, 6⟩ rfl rfl rfl

/-- C7: for every ascending input sequence of versions (given as the
non-empty minor-version buckets whose concatenation is the input),
`Versions.flattened` returns exactly that sequence unmodified, and
`Versions.latest` returns its maximum element, or `none` when the input is
empty. -/
theorem claim_C7 (buckets : List (List Version))
    (hne : ∀ b ∈ buckets, b ≠ [])
    (hasc : (Versions.mk buckets).flattened.Pairwise (fun a b => versionLe a b = true)) :
    (Versions.mk buckets).flattened = buckets.flatten ∧
    (buckets = [] → (Versions.mk buckets).latest = none) ∧
    (buckets ≠ [] → ∃ m, (Versions.mk buckets).latest = some m ∧
      m ∈ (Versions.mk buckets).flattened ∧
      ∀ x ∈ (Versions.mk buckets).flattened, versionLe x m = true) := by
  refine ⟨rfl, fun h => by subst h; rfl, fun h => ?_⟩
  rcases List.eq_nil_or_concat buckets with hnil | ⟨front, last, hsplit⟩
  · exact absurd hnil h
  rw [List.concat_eq_append] at hsplit
  have hlast : last ≠ [] := hne last (by rw [hsplit]; exact List.mem_append_right _ (List.mem_singleton_self _))
  rcases List.eq_nil_or_concat last with hlnil | ⟨lfront, m, hlsplit⟩
  · exact absurd hlnil hlast
  rw [List.concat_eq_append] at hlsplit
  refine ⟨m, ?_, ?_, ?_⟩
  · show (match buckets.getLast? with
      | none => none
      | some bucket => bucket.getLast?) = some m
    rw [hsplit, List.getLast?_concat, hlsplit]
    dsimp only
    rw [List.getLast?_concat]
  · show m ∈ buckets.flatten
    rw [hsplit]
    exact List.mem_flatten.mpr ⟨last, List.mem_append_right _ (List.mem_singleton_self _),
      by rw [hlsplit]; exact List.mem_append_right _ (List.mem_singleton_self _)⟩
  · intro x hx
    have hshape : (Versions.mk buckets).flattened = (front.flatten ++ lfront) ++ [m] := by
      show buckets.flatten = (front.flatten ++ lfront) ++ [m]
      rw [hsplit, List.flatten_append, hlsplit]
      simp [List.append_assoc]
    rw [hshape] at hasc hx
    rcases List.mem_append.mp hx with hinit | hm
    · exact (List.pairwise_append.mp hasc).2.2 x hinit m (List.mem_singleton_self m)
    · have : x = m := List.mem_singleton.mp hm
      subst this
      simp [versionLe, versionBeq]

/-- Closed witness for C7: the grouped version fixture from the tests. -/
theorem claim_C7_witness :
    (Versions.mk [[⟨1, 1, 1⟩, ⟨1, 1, 2⟩], [⟨1, 2, 1⟩, ⟨1, 2, 2⟩]]).flattened =
      [[⟨1, 1, 1⟩, ⟨1, 1, 2⟩], [⟨1, 2, 1⟩, ⟨1, 2, 2⟩]].flatten :=
  (claim_C7 [[⟨1, 1, 1⟩, ⟨1, 1, 2⟩], [⟨1, 2, 1⟩, ⟨1, 2, 2⟩]]
    (by decide) (by decide)).1

/-- Inserting a key that is not yet bound appends the binding at the end,
as CPython dict assignment does. -/
theorem insertVar_fresh {α : Type} (dict : List (String × α)) (k : String) (v : α)
    (h : k ∉ dict.map Prod.fst) : insertVar dict k v = dict ++ [(k, v)] := by
  induction dict with
  | nil => rfl
  | cons p rest ih =>
    cases p with
    | mk k0 v0 =>
      simp only [List.map_cons, List.mem_cons] at h
      push_neg at h
      simp only [insertVar, List.cons_append]
      rw [if_neg (by simpa [beq_eq_false_iff_ne] using Ne.symm h.1)]
      rw [ih h.2]

/-- Evaluating a concatenation of combination lists concatenates the
evaluations, propagating the first error. -/
theorem evalCombos_append (s : Schema) (a b : List (List (String × String))) :
    evalCombos s (a ++ b) =
      (match evalCombos s a with
       | .error e => .error e
       | .ok la =>
         match evalCombos s b with
         | .error e => .error e
         | .ok lb => .ok (la ++ lb)) := by
  induction a with
  | nil =>
    simp only [List.nil_append, evalCombos]
    cases evalCombos s b <;> rfl
  | cons combo rest ih =>
    cases hf : s.fill_template combo with
    | error e => simp [List.cons_append, evalCombos, hf]
    | ok url =>
      cases hr : evalCombos s rest with
      | error e => simp [List.cons_append, evalCombos, hf, ih, hr]
      | ok la =>
        cases hb : evalCombos s b with
        | error e => simp [List.cons_append, evalCombos, hf, ih, hr, hb]
        | ok lb => simp [List.cons_append, evalCombos, hf, ih, hr, hb]

/-- The slate expansion of `yield_urls` computes exactly the evaluation of
the spec-side cartesian product: with pairwise distinct argument names that
are fresh for the accumulated bindings, and a successfully computed
combination list, the generator's yields are the evaluations of the
combinations appended to the accumulated bindings, in order. -/
theorem yieldUrlsHelper_eq_combos (s : Schema) (pairs : List (String × String)) :
    ∀ (dict : List (String × String)),
      (pairs.map Prod.snd).Nodup →
      (∀ n ∈ pairs.map Prod.snd, n ∉ dict.map Prod.fst) →
      ∀ combos, expandCombos s pairs = .ok combos →
      yieldUrlsHelper s pairs dict = evalCombos s (combos.map (dict ++ ·)) := by
  induction pairs with
  | nil =>
    intro dict _ _ combos hcombos
    simp only [expandCombos, Except.ok.injEq] at hcombos
    subst hcombos
    simp only [yieldUrlsHelper, List.map_cons, List.map_nil, List.append_nil, evalCombos]
  | cons p rest ih =>
    intro dict hnd hdisj combos hcombos
    cases p with
    | mk value name =>
      simp only [List.map_cons, List.nodup_cons] at hnd
      have hdisj' : ∀ n ∈ rest.map Prod.snd, n ∉ dict.map Prod.fst :=
        fun n hn => hdisj n (by simp [hn])
      have hnamefresh : name ∉ dict.map Prod.fst := hdisj name (by simp)
      have hfresh2 : ∀ v : String,
          ∀ n ∈ rest.map Prod.snd, n ∉ (dict ++ [(name, v)]).map Prod.fst := by
        intro v n hn
        simp only [List.map_append, List.map_cons, List.map_nil, List.mem_append,
          List.mem_singleton]
        push_neg
        exact ⟨hdisj' n hn, fun hEq => hnd.1 (hEq ▸ hn)⟩
      rw [yieldUrlsHelper]
      simp only [expandCombos] at hcombos
      by_cases hall : (value == "all") = true
      · -- the sentinel case: expand every allowed value for the name
        rw [if_pos hall]
        rw [if_pos hall] at hcombos
        cases hopt : s.list_allowed_values_for name with
        | error e => rw [hopt] at hcombos; exact absurd hcombos (by simp)
        | ok options =>
          rw [hopt] at hcombos
          dsimp only at hcombos ⊢
          cases htails : expandCombos s rest with
          | error e => rw [htails] at hcombos; exact absurd hcombos (by simp)
          | ok tails =>
            rw [htails] at hcombos
            dsimp only at hcombos
            injection hcombos with hc
            subst hc
            clear hopt hall
            induction options with
            | nil => simp [yieldUrlsAll, evalCombos]
            | cons v vs ihv =>
              rw [yieldUrlsAll]
              rw [insertVar_fresh dict name v hnamefresh]
              rw [ih (dict ++ [(name, v)]) hnd.2 (hfresh2 v) tails htails]
              rw [ihv]
              have hsplit : ((v :: vs).flatMap (fun o => tails.map (fun tail => (name, o) :: tail))).map
                    (dict ++ ·) =
                  (tails.map (fun x => (dict ++ [(name, v)]) ++ x)) ++
                    ((vs.flatMap (fun o => tails.map (fun tail => (name, o) :: tail))).map (dict ++ ·)) := by
                simp only [List.flatMap_cons, List.map_append, List.map_map]
                congr 1
                apply List.map_congr_left
                intro tail _
                simp [Function.comp]
              rw [hsplit, evalCombos_append]
      · -- a literal value: bind it and recurse
        rw [if_neg hall]
        rw [if_neg hall] at hcombos
        dsimp only at hcombos
        cases htails : expandCombos s rest with
        | error e => rw [htails] at hcombos; exact absurd hcombos (by simp)
        | ok tails =>
          rw [htails] at hcombos
          dsimp only at hcombos
          injection hcombos with hc
          subst hc
          rw [insertVar_fresh dict name value hnamefresh]
          rw [ih (dict ++ [(name, value)]) hnd.2 (hfresh2 value) tails htails]
          congr 1
          simp only [List.flatMap_cons, List.flatMap_nil, List.append_nil, List.map_map]
          apply List.map_congr_left
          intro tail _
          simp [Function.comp]

/-- C3: URL expansion fails with the wrong-arity error when the positional
list's length differs from the declared argument count; otherwise (for
pairwise distinct declared argument names, and whenever the spec-side
cartesian expansion of the positional values is defined) it yields exactly
the spec-side enumeration `expandAll`: every position holding the sentinel
`all` replaced by each allowed value for that position's argument name, the
last-declared argument varying fastest, each complete combination yielding
`<product>/<evaluated url template>`. -/
theorem claim_C3 (s : Schema) (vals : List String) :
    (vals.length ≠ s.args.length →
      s.yield_urls vals = .error (.cliInputError "Wrong number of arguments!")) ∧
    (s.args.Nodup → exceptIsOk (expandCombos s (vals.zip s.args)) = true →
      s.yield_urls vals = expandAll s vals) := by
  constructor
  · intro h
    have hb : (vals.length != s.args.length) = true := bne_iff_ne.mpr h
    simp [Schema.yield_urls, hb]
  · intro hnd hok
    by_cases hlen : vals.length = s.args.length
    · have hb : (vals.length != s.args.length) = false := by
        simp [bne_eq_false_iff_eq, hlen]
      rw [Schema.yield_urls, expandAll, if_neg (by simp [hb]), if_neg (by simp [hb])]
      cases hcombos : expandCombos s (vals.zip s.args) with
      | error e => rw [hcombos] at hok; exact absurd hok (by simp [exceptIsOk])
      | ok combos =>
        have hsnd : (vals.zip s.args).map Prod.snd = s.args :=
          List.map_snd_zip vals s.args (le_of_eq hlen.symm)
        have h := yieldUrlsHelper_eq_combos s (vals.zip s.args) []
          (by rw [hsnd]; exact hnd)
          (by intro n _ hfalse; simp at hfalse)
          combos hcombos
        rw [h]
        simp
    · have hb : (vals.length != s.args.length) = true := bne_iff_ne.mpr hlen
      rw [Schema.yield_urls, expandAll, if_pos (by simp [hb]), if_pos (by simp [hb])]

/-- Closed witness for C3: the fixture's `alt` schema with a concrete
version and the sentinel `all` in the extension position, plus the
wrong-arity case. -/
theorem claim_C3_witness :
    altSchema.yield_urls ["1.2.6", "all"] = expandAll altSchema ["1.2.6", "all"] ∧
    altSchema.yield_urls ["1.2.6"] = .error (.cliInputError "Wrong number of arguments!") :=
  ⟨(claim_C3 altSchema ["1.2.6", "all"]).2 (by decide) rfl,
   (claim_C3 altSchema ["1.2.6"]).1 (by decide)⟩

end Aqt
